import Mathlib

/-!
Shallow embedding of the 2048 rules engine `src/sl29/games/_2048.py`.

A board (`plateau`) is a list of rows of natural numbers, `0` denoting the
empty cell.  The two sources of randomness of the Python module are made
explicit parameters:
* `k : Nat` stands for the draw of `random.choice` over the list of empty
  cells (the element at index `k % length` is chosen, so every element is
  reachable);
* `r : ℚ` stands for the draw of `random.random()`, which lies in `[0, 1)`.
Python names are kept (`_fusionner`, `jouer_coup`, ...).
-/

def TAILLE : Nat := 4

/-- Reading `plateau[i][j]`.  All reads performed by the Python module are in
range; out-of-range reads default to `0` here. -/
def cell (plateau : List (List Nat)) (i j : Nat) : Nat :=
  (plateau.getD i []).getD j 0

/-- Python `_creer_plateau_vide`: the TAILLE×TAILLE grid of zeros built by the
nested comprehension. -/
def _creer_plateau_vide : List (List Nat) :=
  List.replicate TAILLE (List.replicate TAILLE 0)

/-- Python `_get_cases_vides`: coordinates of the empty cells, row-major order
(the outer loop on `i` appends the inner comprehension on `j`). -/
def _get_cases_vides (plateau : List (List Nat)) : List (Nat × Nat) :=
  (List.range TAILLE).flatMap (fun i =>
    ((List.range TAILLE).filter (fun j => cell plateau i j == 0)).map (fun j => (i, j)))

/-- The fresh-tile value `2 + 2*int(random.random())` of `_ajouter_tuile`,
as a function of the draw `r` of `random.random()`.  Python's `int()`
truncates toward zero, which on the non-negative draws of `random.random()`
is the floor. -/
def valeur_tuile (r : ℚ) : Nat := 2 + 2 * (Int.toNat ⌊r⌋)

/-- Python `_ajouter_tuile`: on a board with an empty cell, one empty cell chosen by
`random.choice` receives a fresh tile; a full board is returned unchanged.
The Python `copy.deepcopy` followed by the in-place write is value-level a
`List.set` of the touched row. -/
def _ajouter_tuile (plateau : List (List Nat)) (k : Nat) (r : ℚ) : List (List Nat) :=
  if (_get_cases_vides plateau).isEmpty then plateau
  else
    let cases := _get_cases_vides plateau
    let case := cases.getD (k % cases.length) (0, 0)
    plateau.set case.1 ((plateau.getD case.1 []).set case.2 (valeur_tuile r))

/-- Python `nouvelle_partie`: an empty board seeded by two `_ajouter_tuile` calls,
score 0.  `k1, r1` feed the first call, `k2, r2` the second. -/
def nouvelle_partie (k1 : Nat) (r1 : ℚ) (k2 : Nat) (r2 : ℚ) :
    List (List Nat) × Nat :=
  (_ajouter_tuile (_ajouter_tuile _creer_plateau_vide k1 r1) k2 r2, 0)

/-- Python `_supprimer_zeros`: the comprehension `[v for v in ligne if v != 0]`. -/
def _supprimer_zeros (ligne : List Nat) : List Nat :=
  ligne.filter (fun v => v != 0)

/-- The while-loop of `_fusionner`, state `(ligne, last, points, lenght, v)`.
The merge branch (`ligne[v] == last`) inserts the doubled value at `v-1` and
pops the two merged cells; the other branch records `last` and advances `v`.
The loop runs at most `2*lenght - v` iterations (`v` grows or `lenght`
shrinks), so the `fuel` parameter, instantiated to `2*length + 1` by
`_fusionner`, is never exhausted.  Python's `ligne[v-1]`/`insert(v-1, ·)`
would use negative-index semantics at `v = 0`, but a merge at `v = 0` needs
`ligne[0] == last = 0`, and every caller passes a zero-free line. -/
def _fusionner_boucle : Nat → List Nat → Nat → Nat → Nat → Nat → List Nat × Nat
  | 0, ligne, _, points, _, _ => (ligne, points)
  | fuel + 1, ligne, last, points, lenght, v =>
    if v < lenght then
      if ligne.getD v 0 = last then
        _fusionner_boucle fuel
          (((ligne.insertIdx (v - 1) (ligne.getD (v - 1) 0 * 2)).eraseIdx v).eraseIdx v)
          0 (points + ligne.getD (v - 1) 0 * 2) (lenght - 1) v
      else
        _fusionner_boucle fuel ligne (ligne.getD v 0) points lenght (v + 1)
    else (ligne, points)

/-- Python `_fusionner`: entry state `last = 0`, `points = 0`, `v = 0`. -/
def _fusionner (ligne : List Nat) : List Nat × Nat :=
  _fusionner_boucle (2 * ligne.length + 1) ligne 0 0 ligne.length 0

/-- Python `_completer_zeros`: the while-loop appends `0` until the length reaches
`TAILLE`. -/
def _completer_zeros (ligne : List Nat) : List Nat :=
  ligne ++ List.replicate (TAILLE - ligne.length) 0

/-- The per-row pipeline of `_deplacer_gauche` (§4.2 of the spec):
`_supprimer_zeros`, then `_fusionner`, then `_completer_zeros`, returning the
final row and the points of the row. -/
def ligne_gauche (l : List Nat) : List Nat × Nat :=
  let l_sans_zero := _supprimer_zeros l
  let fz := _fusionner l_sans_zero
  (_completer_zeros fz.1, fz.2)

/-- Python `_deplacer_gauche`: the loop appends each processed row and accumulates
the row points; written as a map plus a sum. -/
def _deplacer_gauche (plateau : List (List Nat)) : List (List Nat) × Nat :=
  (plateau.map (fun l => (ligne_gauche l).1),
   (plateau.map (fun l => (ligne_gauche l).2)).sum)

/-- Python `_inverser_lignes`: `ligne[::-1]` on each row. -/
def _inverser_lignes (plateau : List (List Nat)) : List (List Nat) :=
  plateau.map List.reverse

/-- Python `_deplacer_droite`: reverse rows, move left, reverse rows. -/
def _deplacer_droite (plateau : List (List Nat)) : List (List Nat) × Nat :=
  let p_inverse := _inverser_lignes plateau
  let r := _deplacer_gauche p_inverse
  (_inverser_lignes r.1, r.2)

/-- Python `_transposer`: row `n` of the result collects `ligne[n]` over the rows
`ligne` of the input (out-of-range reads default to `0`, which the Python
code never performs on its TAILLE×TAILLE boards). -/
def _transposer (plateau : List (List Nat)) : List (List Nat) :=
  (List.range TAILLE).map (fun n => plateau.map (fun ligne => ligne.getD n 0))

/-- Python `_deplacer_haut`: transpose, move left, transpose. -/
def _deplacer_haut (plateau : List (List Nat)) : List (List Nat) × Nat :=
  let p_transpose := _transposer plateau
  let r := _deplacer_gauche p_transpose
  (_transposer r.1, r.2)

/-- Python `_deplacer_bas`: transpose, move right, transpose. -/
def _deplacer_bas (plateau : List (List Nat)) : List (List Nat) × Nat :=
  let p_transpose := _transposer plateau
  let r := _deplacer_droite p_transpose
  (_transposer r.1, r.2)

/-- The inner scan of `_partie_terminee` along one line of values: `last`
starts at `0`, and the result is `true` exactly when the Python loop would
hit `return False`, i.e. when some value equals its predecessor in the scan
(the first value being compared with the initial `last = 0`). -/
def balayage_paire (vals : List Nat) : Bool :=
  (vals.foldl (fun (st : Bool × Nat) (x : Nat) => (st.1 || (x == st.2), x))
    ((false, 0) : Bool × Nat)).1

/-- Column `n` read top to bottom: the values `plateau[v][n]` for
`v in range(TAILLE)`. -/
def colonne (plateau : List (List Nat)) (n : Nat) : List Nat :=
  (List.range TAILLE).map (fun v => cell plateau v n)

/-- Row `n` read left to right: the values `plateau[n][v]` for
`v in range(TAILLE)`. -/
def rangee (plateau : List (List Nat)) (n : Nat) : List Nat :=
  (List.range TAILLE).map (fun v => cell plateau n v)

/-- Python `_partie_terminee`: `False` when an empty cell exists, `False` when some
column scan or some row scan finds a repeated adjacent value, `True`
otherwise. -/
def _partie_terminee (plateau : List (List Nat)) : Bool :=
  if !(_get_cases_vides plateau).isEmpty then false
  else if (List.range TAILLE).any (fun n => balayage_paire (colonne plateau n)) then false
  else if (List.range TAILLE).any (fun n => balayage_paire (rangee plateau n)) then false
  else true

/-- Python `jouer_coup`: the four independent `if direction == ...` statements, then
either the no-spawn return (candidate equal to the input) or the spawn
return.  In both returns the terminal flag is `_partie_terminee result`,
computed on the candidate, before any spawn. -/
def jouer_coup (plateau : List (List Nat)) (direction : Char) (k : Nat) (r : ℚ) :
    List (List Nat) × Nat × Bool :=
  let ancient := plateau
  let st : List (List Nat) × Nat := (plateau, 0)
  let st := if direction = 'g' then _deplacer_gauche plateau else st
  let st := if direction = 'd' then _deplacer_droite plateau else st
  let st := if direction = 'h' then _deplacer_haut plateau else st
  let st := if direction = 'b' then _deplacer_bas plateau else st
  if ancient = st.1 then (st.1, st.2, _partie_terminee st.1)
  else (_ajouter_tuile st.1 k r, st.2, _partie_terminee st.1)

/-! ### Spec-side vocabulary -/

/-- Well-formed board of the data model (§3): TAILLE rows of TAILLE cells. -/
def bien_forme (plateau : List (List Nat)) : Prop :=
  plateau.length = TAILLE ∧ ∀ l ∈ plateau, l.length = TAILLE

instance (plateau : List (List Nat)) : Decidable (bien_forme plateau) :=
  decidable_of_iff (plateau.length = TAILLE ∧ ∀ l ∈ plateau, l.length = TAILLE) Iff.rfl

/-- Number of non-empty cells of a line. -/
def nb_tuiles (ligne : List Nat) : Nat := (ligne.filter (fun v => v != 0)).length

/-- A line holds two adjacent equal non-empty values. -/
def paire_adjacente : List Nat → Bool
  | x :: y :: reste => (x != 0 && x == y) || paire_adjacente (y :: reste)
  | _ => false

/-- The legal direction codes of `jouer_coup`. -/
def directions_legales : List Char := ['g', 'd', 'h', 'b']

/-- The board holds at least one empty cell (within the TAILLE×TAILLE
window). -/
def contient_zero (p : List (List Nat)) : Prop :=
  ∃ i < TAILLE, ∃ j < TAILLE, cell p i j = 0

/-- The candidate board and the points of one directional move, before any
spawn: the common value of `result, nouveaux_points` after the four
`if direction == ...` statements of `jouer_coup`. -/
def coup_direction (plateau : List (List Nat)) (direction : Char) :
    List (List Nat) × Nat :=
  let st : List (List Nat) × Nat := (plateau, 0)
  let st := if direction = 'g' then _deplacer_gauche plateau else st
  let st := if direction = 'd' then _deplacer_droite plateau else st
  let st := if direction = 'h' then _deplacer_haut plateau else st
  if direction = 'b' then _deplacer_bas plateau else st

/-- The terminal state as the claim words it: no empty cell, no two
horizontally adjacent equal cells in any row, no two vertically adjacent
equal cells in any column. -/
def terminee_selon_spec (p : List (List Nat)) : Prop :=
  (∀ i < TAILLE, ∀ j < TAILLE, cell p i j ≠ 0) ∧
  (∀ i < TAILLE, ∀ j, j + 1 < TAILLE → cell p i j ≠ cell p i (j + 1)) ∧
  (∀ j < TAILLE, ∀ i, i + 1 < TAILLE → cell p i j ≠ cell p (i + 1) j)

/-! ### Helper lemmas -/

theorem cases_vides_vide (p : List (List Nat)) :
    ((_get_cases_vides p).isEmpty = true) ↔ (∀ i < TAILLE, ∀ j < TAILLE, cell p i j ≠ 0) := by
  simp [_get_cases_vides, List.isEmpty_iff, List.flatMap_eq_nil_iff, List.map_eq_nil_iff,
    List.filter_eq_nil_iff, List.mem_range]

theorem balayage_quatre (a b c d : Nat) :
    balayage_paire [a, b, c, d] = false ↔ (a ≠ 0 ∧ b ≠ a ∧ c ≠ b ∧ d ≠ c) := by
  simp [balayage_paire, and_assoc]

theorem colonne_explicite (p : List (List Nat)) (n : Nat) :
    colonne p n = [cell p 0 n, cell p 1 n, cell p 2 n, cell p 3 n] := rfl

theorem rangee_explicite (p : List (List Nat)) (n : Nat) :
    rangee p n = [cell p n 0, cell p n 1, cell p n 2, cell p n 3] := rfl

/-- Function `jouer_coup` written through `coup_direction`. -/
theorem jouer_coup_via_direction (p : List (List Nat)) (d : Char) (k : Nat) (r : ℚ) :
    jouer_coup p d k r =
      (if p = (coup_direction p d).1 then
        ((coup_direction p d).1, (coup_direction p d).2,
          _partie_terminee (coup_direction p d).1)
      else
        (_ajouter_tuile (coup_direction p d).1 k r, (coup_direction p d).2,
          _partie_terminee (coup_direction p d).1)) := rfl

/-- Invariant of the `_fusionner` loop on a zero-free line of the advertised
length: the result stays zero-free, never grows, never loses points, is the
input when no points were earned, and strictly shrinks when points were
earned. -/
theorem fusionner_boucle_inv (fuel : Nat) :
    ∀ (ligne : List Nat) (last points v : Nat), 0 ∉ ligne →
      0 ∉ (_fusionner_boucle fuel ligne last points ligne.length v).1 ∧
      (_fusionner_boucle fuel ligne last points ligne.length v).1.length ≤ ligne.length ∧
      points ≤ (_fusionner_boucle fuel ligne last points ligne.length v).2 ∧
      ((_fusionner_boucle fuel ligne last points ligne.length v).2 = points →
        (_fusionner_boucle fuel ligne last points ligne.length v).1 = ligne) ∧
      (points < (_fusionner_boucle fuel ligne last points ligne.length v).2 →
        (_fusionner_boucle fuel ligne last points ligne.length v).1.length < ligne.length) := by
  induction fuel with
  | zero =>
    intro ligne last points v h0
    simp [_fusionner_boucle, h0]
  | succ fuel ih =>
    intro ligne last points v h0
    by_cases hv : v < ligne.length
    · by_cases hm : ligne.getD v 0 = last
      · have hvm1 : v - 1 ≤ ligne.length := by omega
        have hprev_mem : ligne.getD (v - 1) 0 ∈ ligne := by
          rw [List.getD_eq_getElem ligne 0 (by omega)]
          exact List.getElem_mem _
        have hprev_ne : ligne.getD (v - 1) 0 ≠ 0 := fun h => h0 (h ▸ hprev_mem)
        set d := ligne.getD (v - 1) 0 * 2 with hd
        set ligne' := ((ligne.insertIdx (v - 1) d).eraseIdx v).eraseIdx v with hl'
        have hlen_ins : (ligne.insertIdx (v - 1) d).length = ligne.length + 1 :=
          List.length_insertIdx _ _ hvm1
        have hlen_e1 : ((ligne.insertIdx (v - 1) d).eraseIdx v).length = ligne.length := by
          rw [List.length_eraseIdx]
          simp [hlen_ins]
          omega
        have hlen' : ligne'.length = ligne.length - 1 := by
          rw [hl', List.length_eraseIdx, hlen_e1]
          simp [hv]
        have h0' : 0 ∉ ligne' := by
          intro hmem
          have h1 : (0 : Nat) ∈ (ligne.insertIdx (v - 1) d).eraseIdx v :=
            List.eraseIdx_subset _ _ hmem
          have h2 : (0 : Nat) ∈ ligne.insertIdx (v - 1) d :=
            List.eraseIdx_subset _ _ h1
          rw [List.mem_insertIdx hvm1] at h2
          rcases h2 with h2 | h2
          · exact hprev_ne (by omega)
          · exact h0 h2
        have hstep : _fusionner_boucle (fuel + 1) ligne last points ligne.length v =
            _fusionner_boucle fuel ligne' 0 (points + d) (ligne.length - 1) v := by
          simp only [_fusionner_boucle]
          rw [if_pos hv, if_pos hm]
        rw [hstep]
        have hrw : ligne.length - 1 = ligne'.length := hlen'.symm
        rw [hrw]
        obtain ⟨i1, i2, i3, i4, i5⟩ := ih ligne' 0 (points + d) v h0'
        have hdpos : 0 < d := by
          rcases Nat.eq_zero_or_pos (ligne.getD (v - 1) 0) with h | h
          · exact absurd h hprev_ne
          · omega
        refine ⟨i1, ?_, ?_, ?_, ?_⟩
        · omega
        · omega
        · intro heq; omega
        · intro _; omega
      · have hstep : _fusionner_boucle (fuel + 1) ligne last points ligne.length v =
            _fusionner_boucle fuel ligne (ligne.getD v 0) points ligne.length (v + 1) := by
          simp only [_fusionner_boucle]
          rw [if_pos hv, if_neg hm]
        rw [hstep]
        exact ih ligne (ligne.getD v 0) points (v + 1) h0
    · have hstep : _fusionner_boucle (fuel + 1) ligne last points ligne.length v =
          (ligne, points) := by
        simp only [_fusionner_boucle]
        rw [if_neg hv]
      rw [hstep]
      simp [h0]

/-- The `_fusionner` invariant at the entry state. -/
theorem fusionner_inv (l : List Nat) (h0 : 0 ∉ l) :
    0 ∉ (_fusionner l).1 ∧ (_fusionner l).1.length ≤ l.length ∧
    ((_fusionner l).2 = 0 → (_fusionner l).1 = l) ∧
    (0 < (_fusionner l).2 → (_fusionner l).1.length < l.length) := by
  obtain ⟨i1, i2, i3, i4, i5⟩ := fusionner_boucle_inv (2 * l.length + 1) l 0 0 0 h0
  exact ⟨i1, i2, i4, i5⟩

theorem supprimer_sans_zero (l : List Nat) : 0 ∉ _supprimer_zeros l := by
  simp [_supprimer_zeros]

theorem supprimer_length_le (l : List Nat) : (_supprimer_zeros l).length ≤ l.length :=
  List.length_filter_le _ _

/-- Filtering the zeros out of a processed line recovers the merged cells. -/
theorem supprimer_completer (m : List Nat) (h0 : 0 ∉ m) :
    _supprimer_zeros (_completer_zeros m) = m := by
  unfold _supprimer_zeros _completer_zeros
  rw [List.filter_append, List.filter_replicate]
  simp only [bne_self_eq_false, Bool.false_eq_true, if_false, List.append_nil]
  refine List.filter_eq_self.2 (fun a ha => ?_)
  simp only [bne_iff_ne, ne_eq]
  exact fun h => h0 (h ▸ ha)

/-- A row that comes back unchanged from the §4.2 pipeline earned no
points. -/
theorem ligne_gauche_fixe {l : List Nat} (h : (ligne_gauche l).1 = l) :
    (ligne_gauche l).2 = 0 := by
  obtain ⟨f1, f2, f3, f4⟩ := fusionner_inv (_supprimer_zeros l) (supprimer_sans_zero l)
  have hm : _supprimer_zeros (_completer_zeros (_fusionner (_supprimer_zeros l)).1) =
      _supprimer_zeros l := by
    show _supprimer_zeros ((ligne_gauche l).1) = _supprimer_zeros l
    rw [h]
  rw [supprimer_completer _ f1] at hm
  by_contra hq
  have hq' : 0 < (_fusionner (_supprimer_zeros l)).2 := Nat.pos_of_ne_zero hq
  have := f4 hq'
  rw [hm] at this
  omega

/-- The §4.2 pipeline returns a row of length TAILLE whenever the input row
is not longer than TAILLE. -/
theorem ligne_gauche_longueur {l : List Nat} (h : l.length ≤ TAILLE) :
    (ligne_gauche l).1.length = TAILLE := by
  obtain ⟨f1, f2, f3, f4⟩ := fusionner_inv (_supprimer_zeros l) (supprimer_sans_zero l)
  have h2 : (_fusionner (_supprimer_zeros l)).1.length ≤ l.length :=
    le_trans f2 (supprimer_length_le l)
  show (_completer_zeros (_fusionner (_supprimer_zeros l)).1).length = TAILLE
  unfold _completer_zeros
  rw [List.length_append, List.length_replicate]
  omega

/-- A row of length TAILLE that the §4.2 pipeline changes contains an empty
cell afterwards. -/
theorem ligne_gauche_change {l : List Nat} (hlen : l.length = TAILLE)
    (h : (ligne_gauche l).1 ≠ l) : 0 ∈ (ligne_gauche l).1 := by
  obtain ⟨f1, f2, f3, f4⟩ := fusionner_inv (_supprimer_zeros l) (supprimer_sans_zero l)
  set m := (_fusionner (_supprimer_zeros l)).1 with hmdef
  by_cases hml : m.length < TAILLE
  · show 0 ∈ _completer_zeros m
    unfold _completer_zeros
    refine List.mem_append.2 (Or.inr ?_)
    exact List.mem_replicate.2 ⟨by omega, rfl⟩
  · exfalso
    have hsl : (_supprimer_zeros l).length ≤ l.length := supprimer_length_le l
    have hm4 : m.length = TAILLE := by omega
    have hs4 : (_supprimer_zeros l).length = TAILLE := by omega
    have hsfull : _supprimer_zeros l = l := by
      refine List.filter_eq_self.2 ?_
      refine List.filter_length_eq_length.1 ?_
      show (_supprimer_zeros l).length = l.length
      rw [hs4, hlen]
    have hq : (_fusionner (_supprimer_zeros l)).2 = 0 := by
      by_contra hq
      have := f4 (Nat.pos_of_ne_zero hq)
      omega
    have hmeq : m = l := (f3 hq).trans hsfull
    apply h
    show _completer_zeros m = l
    unfold _completer_zeros
    rw [hm4]
    simp [hmeq]

/-- A list fixed by a map is fixed pointwise. -/
theorem map_fixe {α : Type} {f : α → α} {l : List α} (h : l.map f = l) :
    ∀ a ∈ l, f a = a := by
  induction l with
  | nil => simp
  | cons x t ih =>
    simp only [List.map_cons, List.cons.injEq] at h
    intro a ha
    rcases List.mem_cons.1 ha with rfl | ha
    · exact h.1
    · exact ih h.2 a ha

/-- A map fixed pointwise fixes the list. -/
theorem map_fixe_inv {α : Type} {f : α → α} {l : List α}
    (h : ∀ a ∈ l, f a = a) : l.map f = l := by
  induction l with
  | nil => rfl
  | cons x t ih =>
    simp only [List.map_cons]
    rw [h x (List.mem_cons_self x t), ih (fun a ha => h a (List.mem_cons_of_mem x ha))]

theorem bf_gauche {p : List (List Nat)} (hbf : bien_forme p) :
    bien_forme (_deplacer_gauche p).1 := by
  constructor
  · show (p.map _).length = TAILLE
    rw [List.length_map]
    exact hbf.1
  · intro l hl
    rcases List.mem_map.1 hl with ⟨a, ha, rfl⟩
    exact ligne_gauche_longueur (le_of_eq (hbf.2 a ha))

theorem bf_inverser {p : List (List Nat)} (hbf : bien_forme p) :
    bien_forme (_inverser_lignes p) := by
  constructor
  · show (p.map _).length = TAILLE
    rw [List.length_map]
    exact hbf.1
  · intro l hl
    rcases List.mem_map.1 hl with ⟨a, ha, rfl⟩
    rw [List.length_reverse]
    exact hbf.2 a ha

theorem bf_transposer {p : List (List Nat)} (hlen : p.length = TAILLE) :
    bien_forme (_transposer p) := by
  constructor
  · show ((List.range TAILLE).map _).length = TAILLE
    rw [List.length_map, List.length_range]
  · intro l hl
    rcases List.mem_map.1 hl with ⟨n, hn, rfl⟩
    rw [List.length_map]
    exact hlen

theorem bf_droite {p : List (List Nat)} (hbf : bien_forme p) :
    bien_forme (_deplacer_droite p).1 :=
  bf_inverser (bf_gauche (bf_inverser hbf))

theorem inverser_inverser (p : List (List Nat)) :
    _inverser_lignes (_inverser_lignes p) = p := by
  unfold _inverser_lignes
  rw [List.map_map]
  simp [Function.comp_def]

theorem cell_inverser {p : List (List Nat)} (hbf : bien_forme p) {i j : Nat}
    (hi : i < TAILLE) (hj : j < TAILLE) :
    cell (_inverser_lignes p) i j = cell p i (TAILLE - 1 - j) := by
  have hip : i < p.length := by rw [hbf.1]; exact hi
  have hrow : p[i].length = TAILLE := hbf.2 _ (List.getElem_mem hip)
  unfold cell _inverser_lignes
  rw [List.getD_eq_getElem _ [] (by rw [List.length_map]; exact hip)]
  rw [List.getElem_map]
  rw [List.getD_eq_getElem _ 0 (by rw [List.length_reverse, hrow]; exact hj)]
  rw [List.getElem_reverse]
  rw [List.getD_eq_getElem p [] hip]
  rw [List.getD_eq_getElem _ 0 (by rw [hrow]; omega)]
  simp only [hrow]

theorem cell_transposer {p : List (List Nat)} {i j : Nat}
    (hi : i < TAILLE) (hj : j < p.length) :
    cell (_transposer p) i j = cell p j i := by
  unfold cell _transposer
  rw [List.getD_eq_getElem _ []
    (by rw [List.length_map, List.length_range]; exact hi)]
  rw [List.getElem_map, List.getElem_range]
  rw [List.getD_eq_getElem _ 0 (by rw [List.length_map]; exact hj)]
  rw [List.getElem_map]
  rw [List.getD_eq_getElem p [] hj]

theorem eq_of_cell {p q : List (List Nat)} (hp : bien_forme p) (hq : bien_forme q)
    (h : ∀ i < TAILLE, ∀ j < TAILLE, cell p i j = cell q i j) : p = q := by
  refine List.ext_getElem (by rw [hp.1, hq.1]) ?_
  intro n h1 h2
  have hrowp : p[n].length = TAILLE := hp.2 _ (List.getElem_mem h1)
  have hrowq : q[n].length = TAILLE := hq.2 _ (List.getElem_mem h2)
  refine List.ext_getElem (by rw [hrowp, hrowq]) ?_
  intro m hm1 hm2
  have hn4 : n < TAILLE := by rw [← hp.1]; exact h1
  have hm4 : m < TAILLE := by rw [← hrowp]; exact hm1
  have hcm := h n hn4 m hm4
  unfold cell at hcm
  rwa [List.getD_eq_getElem p [] h1, List.getD_eq_getElem q [] h2,
    List.getD_eq_getElem _ 0 hm1, List.getD_eq_getElem _ 0 hm2] at hcm

theorem transposer_transposer {p : List (List Nat)} (hbf : bien_forme p) :
    _transposer (_transposer p) = p := by
  have hT : bien_forme (_transposer p) := bf_transposer hbf.1
  refine eq_of_cell (bf_transposer hT.1) hbf ?_
  intro i hi j hj
  rw [cell_transposer hi (by rw [hT.1]; exact hj)]
  rw [cell_transposer hj (by rw [hbf.1]; exact hi)]

theorem cases_vides_nonvide {p : List (List Nat)} (h : contient_zero p) :
    (_get_cases_vides p).isEmpty = false := by
  rcases h with ⟨i, hi, j, hj, hc⟩
  cases hb : (_get_cases_vides p).isEmpty
  · rfl
  · exact absurd hc ((cases_vides_vide p).1 hb i hi j hj)

theorem terminee_faux {p : List (List Nat)} (h : contient_zero p) :
    _partie_terminee p = false := by
  unfold _partie_terminee
  rw [cases_vides_nonvide h]
  rfl

theorem mem_cases_vides {p : List (List Nat)} {c : Nat × Nat}
    (h : c ∈ _get_cases_vides p) :
    c.1 < TAILLE ∧ c.2 < TAILLE ∧ cell p c.1 c.2 = 0 := by
  simp only [_get_cases_vides, List.mem_flatMap, List.mem_map, List.mem_filter,
    List.mem_range, beq_iff_eq] at h
  rcases h with ⟨i, hi, j, ⟨hj, hc⟩, rfl⟩
  exact ⟨hi, hj, hc⟩

/-- When the board has an empty cell, `_ajouter_tuile` writes the fresh tile
value at one previously empty in-range cell and changes nothing else. -/
theorem spawn_ecrit_case_vide (p : List (List Nat)) (k : Nat) (r : ℚ)
    (h : (_get_cases_vides p).isEmpty = false) :
    ∃ i j, i < TAILLE ∧ j < TAILLE ∧ cell p i j = 0 ∧
      _ajouter_tuile p k r = p.set i ((p.getD i []).set j (valeur_tuile r)) := by
  have hlen : 0 < (_get_cases_vides p).length := by
    cases hc : _get_cases_vides p
    · rw [hc] at h
      simp at h
    · simp [hc]
  have hidx : k % (_get_cases_vides p).length < (_get_cases_vides p).length :=
    Nat.mod_lt _ hlen
  have hmem : (_get_cases_vides p).getD (k % (_get_cases_vides p).length) (0, 0) ∈
      _get_cases_vides p := by
    rw [List.getD_eq_getElem _ _ hidx]
    exact List.getElem_mem _
  obtain ⟨h1, h2, h3⟩ := mem_cases_vides hmem
  refine ⟨_, _, h1, h2, h3, ?_⟩
  unfold _ajouter_tuile
  rw [h]
  rfl

theorem gauche_points_zero {p : List (List Nat)}
    (h : (_deplacer_gauche p).1 = p) : (_deplacer_gauche p).2 = 0 := by
  have hrows : ∀ a ∈ p, (ligne_gauche a).1 = a :=
    map_fixe (f := fun l => (ligne_gauche l).1) h
  show (p.map (fun l => (ligne_gauche l).2)).sum = 0
  refine List.sum_eq_zero ?_
  intro x hx
  rcases List.mem_map.1 hx with ⟨a, ha, rfl⟩
  exact ligne_gauche_fixe (hrows a ha)

theorem gauche_change_zero {p : List (List Nat)} (hbf : bien_forme p)
    (h : (_deplacer_gauche p).1 ≠ p) : contient_zero (_deplacer_gauche p).1 := by
  have hex : ∃ a ∈ p, (ligne_gauche a).1 ≠ a := by
    by_contra hall
    push_neg at hall
    exact h (map_fixe_inv hall)
  rcases hex with ⟨a, ha, hne⟩
  rcases List.mem_iff_getElem.1 ha with ⟨n, hn, rfl⟩
  have hrow : p[n].length = TAILLE := hbf.2 _ (List.getElem_mem hn)
  have h0 : 0 ∈ (ligne_gauche p[n]).1 := ligne_gauche_change hrow hne
  rcases List.mem_iff_getElem.1 h0 with ⟨j, hj, hj0⟩
  have hlg : (ligne_gauche p[n]).1.length = TAILLE := ligne_gauche_longueur (le_of_eq hrow)
  refine ⟨n, by rw [← hbf.1]; exact hn, j, by rw [← hlg]; exact hj, ?_⟩
  show cell (p.map (fun l => (ligne_gauche l).1)) n j = 0
  unfold cell
  rw [List.getD_eq_getElem _ [] (by rw [List.length_map]; exact hn)]
  rw [List.getElem_map]
  rw [List.getD_eq_getElem _ 0 hj]
  exact hj0

theorem droite_points_zero {p : List (List Nat)}
    (h : (_deplacer_droite p).1 = p) : (_deplacer_droite p).2 = 0 := by
  have hY : (_deplacer_gauche (_inverser_lignes p)).1 = _inverser_lignes p := by
    have h2 := congrArg _inverser_lignes h
    rwa [show (_deplacer_droite p).1 =
        _inverser_lignes (_deplacer_gauche (_inverser_lignes p)).1 from rfl,
      inverser_inverser] at h2
  show (_deplacer_gauche (_inverser_lignes p)).2 = 0
  exact gauche_points_zero hY

theorem droite_change_zero {p : List (List Nat)} (hbf : bien_forme p)
    (h : (_deplacer_droite p).1 ≠ p) : contient_zero (_deplacer_droite p).1 := by
  have hY : (_deplacer_gauche (_inverser_lignes p)).1 ≠ _inverser_lignes p := by
    intro he
    apply h
    show _inverser_lignes (_deplacer_gauche (_inverser_lignes p)).1 = p
    rw [he, inverser_inverser]
  rcases gauche_change_zero (bf_inverser hbf) hY with ⟨i, hi, j, hj, hc⟩
  have hbfY : bien_forme (_deplacer_gauche (_inverser_lignes p)).1 :=
    bf_gauche (bf_inverser hbf)
  have ht : TAILLE = 4 := rfl
  refine ⟨i, hi, TAILLE - 1 - j, by omega, ?_⟩
  show cell (_inverser_lignes (_deplacer_gauche (_inverser_lignes p)).1) i
    (TAILLE - 1 - j) = 0
  rw [cell_inverser hbfY hi (by omega)]
  have hjj : TAILLE - 1 - (TAILLE - 1 - j) = j := by omega
  rw [hjj]
  exact hc

theorem haut_points_zero {p : List (List Nat)} (hbf : bien_forme p)
    (h : (_deplacer_haut p).1 = p) : (_deplacer_haut p).2 = 0 := by
  have hbfZ : bien_forme (_deplacer_gauche (_transposer p)).1 :=
    bf_gauche (bf_transposer hbf.1)
  have hZ : (_deplacer_gauche (_transposer p)).1 = _transposer p := by
    have h2 := congrArg _transposer h
    rwa [show (_deplacer_haut p).1 =
        _transposer (_deplacer_gauche (_transposer p)).1 from rfl,
      transposer_transposer hbfZ] at h2
  show (_deplacer_gauche (_transposer p)).2 = 0
  exact gauche_points_zero hZ

theorem haut_change_zero {p : List (List Nat)} (hbf : bien_forme p)
    (h : (_deplacer_haut p).1 ≠ p) : contient_zero (_deplacer_haut p).1 := by
  have hbfT : bien_forme (_transposer p) := bf_transposer hbf.1
  have hZ : (_deplacer_gauche (_transposer p)).1 ≠ _transposer p := by
    intro he
    apply h
    show _transposer (_deplacer_gauche (_transposer p)).1 = p
    rw [he, transposer_transposer hbf]
  rcases gauche_change_zero hbfT hZ with ⟨i, hi, j, hj, hc⟩
  have hbfZ : bien_forme (_deplacer_gauche (_transposer p)).1 := bf_gauche hbfT
  refine ⟨j, hj, i, hi, ?_⟩
  show cell (_transposer (_deplacer_gauche (_transposer p)).1) j i = 0
  rw [cell_transposer hj (by rw [hbfZ.1]; exact hi)]
  exact hc

theorem bas_points_zero {p : List (List Nat)} (hbf : bien_forme p)
    (h : (_deplacer_bas p).1 = p) : (_deplacer_bas p).2 = 0 := by
  have hbfD : bien_forme (_deplacer_droite (_transposer p)).1 :=
    bf_droite (bf_transposer hbf.1)
  have hD : (_deplacer_droite (_transposer p)).1 = _transposer p := by
    have h2 := congrArg _transposer h
    rwa [show (_deplacer_bas p).1 =
        _transposer (_deplacer_droite (_transposer p)).1 from rfl,
      transposer_transposer hbfD] at h2
  show (_deplacer_droite (_transposer p)).2 = 0
  exact droite_points_zero hD

theorem bas_change_zero {p : List (List Nat)} (hbf : bien_forme p)
    (h : (_deplacer_bas p).1 ≠ p) : contient_zero (_deplacer_bas p).1 := by
  have hbfT : bien_forme (_transposer p) := bf_transposer hbf.1
  have hD : (_deplacer_droite (_transposer p)).1 ≠ _transposer p := by
    intro he
    apply h
    show _transposer (_deplacer_droite (_transposer p)).1 = p
    rw [he, transposer_transposer hbf]
  rcases droite_change_zero hbfT hD with ⟨i, hi, j, hj, hc⟩
  have hbfD : bien_forme (_deplacer_droite (_transposer p)).1 :=
    bf_droite hbfT
  refine ⟨j, hj, i, hi, ?_⟩
  show cell (_transposer (_deplacer_droite (_transposer p)).1) j i = 0
  rw [cell_transposer hj (by rw [hbfD.1]; exact hi)]
  exact hc

theorem coup_direction_g (p : List (List Nat)) :
    coup_direction p 'g' = _deplacer_gauche p := rfl

theorem coup_direction_d (p : List (List Nat)) :
    coup_direction p 'd' = _deplacer_droite p := rfl

theorem coup_direction_h (p : List (List Nat)) :
    coup_direction p 'h' = _deplacer_haut p := rfl

theorem coup_direction_b (p : List (List Nat)) :
    coup_direction p 'b' = _deplacer_bas p := rfl

theorem coup_direction_autre {p : List (List Nat)} {d : Char}
    (h : d ∉ directions_legales) : coup_direction p d = (p, 0) := by
  simp only [directions_legales, List.mem_cons, List.not_mem_nil, or_false] at h
  push_neg at h
  obtain ⟨hg, hd, hh, hb⟩ := h
  simp [coup_direction, hg, hd, hh, hb]

/-- A changed legal candidate holds an empty cell. -/
theorem coup_direction_change_zero {p : List (List Nat)} {d : Char}
    (hbf : bien_forme p) (hd : d ∈ directions_legales)
    (hchg : (coup_direction p d).1 ≠ p) : contient_zero (coup_direction p d).1 := by
  simp only [directions_legales, List.mem_cons, List.not_mem_nil, or_false] at hd
  rcases hd with rfl | rfl | rfl | rfl
  · rw [coup_direction_g] at hchg ⊢
    exact gauche_change_zero hbf hchg
  · rw [coup_direction_d] at hchg ⊢
    exact droite_change_zero hbf hchg
  · rw [coup_direction_h] at hchg ⊢
    exact haut_change_zero hbf hchg
  · rw [coup_direction_b] at hchg ⊢
    exact bas_change_zero hbf hchg

/-- A fixed candidate earned no points, whatever the direction. -/
theorem coup_direction_fixe_points {p : List (List Nat)} {d : Char}
    (hbf : bien_forme p) (hfix : (coup_direction p d).1 = p) :
    (coup_direction p d).2 = 0 := by
  by_cases hmem : d ∈ directions_legales
  · simp only [directions_legales, List.mem_cons, List.not_mem_nil, or_false] at hmem
    rcases hmem with rfl | rfl | rfl | rfl
    · rw [coup_direction_g] at hfix ⊢
      exact gauche_points_zero hfix
    · rw [coup_direction_d] at hfix ⊢
      exact droite_points_zero hfix
    · rw [coup_direction_h] at hfix ⊢
      exact haut_points_zero hbf hfix
    · rw [coup_direction_b] at hfix ⊢
      exact bas_points_zero hbf hfix
  · rw [coup_direction_autre hmem]

/-- Writing value `v` at the in-range cell `(i, j)` changes that cell and no
other. -/
theorem cell_set {p : List (List Nat)} (hbf : bien_forme p) {i j : Nat}
    (hi : i < TAILLE) (hj : j < TAILLE) (v : Nat) (a b : Nat) :
    cell (p.set i ((p.getD i []).set j v)) a b =
      if a = i ∧ b = j then v else cell p a b := by
  have hip : i < p.length := by rw [hbf.1]; exact hi
  have hrow : (p.getD i []).length = TAILLE := by
    rw [List.getD_eq_getElem p [] hip]
    exact hbf.2 _ (List.getElem_mem hip)
  unfold cell
  by_cases hai : a = i
  · subst hai
    rw [List.getD_eq_getElem (p.set a ((p.getD a []).set j v)) []
      (by rw [List.length_set]; exact hip)]
    rw [List.getElem_set]
    rw [if_pos rfl]
    by_cases hbj : b = j
    · subst hbj
      rw [List.getD_eq_getElem _ 0 (by rw [List.length_set, hrow]; exact hj)]
      rw [List.getElem_set, if_pos rfl, if_pos ⟨rfl, rfl⟩]
    · rw [if_neg (fun hc => hbj hc.2)]
      by_cases hbr : b < (p.getD a []).length
      · rw [List.getD_eq_getElem _ 0 (by rw [List.length_set]; exact hbr)]
        rw [List.getElem_set, if_neg (fun h => hbj h.symm)]
        rw [List.getD_eq_getElem _ 0 hbr]
      · rw [List.getD_eq_default _ _ (by rw [List.length_set]; omega)]
        rw [List.getD_eq_default _ _ (by omega)]
  · rw [List.getD_eq_getElem?_getD (p.set i ((p.getD i []).set j v)) a []]
    rw [List.getElem?_set_ne (fun h => hai h.symm)]
    rw [if_neg (fun hc => hai hc.1)]
    rw [List.getD_eq_getElem?_getD p a []]

theorem bf_set {p : List (List Nat)} (hbf : bien_forme p) {i j : Nat}
    (hi : i < TAILLE) (v : Nat) :
    bien_forme (p.set i ((p.getD i []).set j v)) := by
  have hip : i < p.length := by rw [hbf.1]; exact hi
  have hrow : (p.getD i []).length = TAILLE := by
    rw [List.getD_eq_getElem p [] hip]
    exact hbf.2 _ (List.getElem_mem hip)
  constructor
  · rw [List.length_set]; exact hbf.1
  · intro l hl
    rcases List.mem_or_eq_of_mem_set hl with hl | rfl
    · exact hbf.2 l hl
    · rw [List.length_set]; exact hrow

theorem cell_vide (i j : Nat) : cell _creer_plateau_vide i j = 0 := by
  unfold cell _creer_plateau_vide
  by_cases hi : i < TAILLE
  · rw [List.getD_eq_getElem _ [] (by rw [List.length_replicate]; exact hi)]
    rw [List.getElem_replicate]
    by_cases hj : j < TAILLE
    · rw [List.getD_eq_getElem _ 0 (by rw [List.length_replicate]; exact hj)]
      rw [List.getElem_replicate]
    · rw [List.getD_eq_default _ _ (by rw [List.length_replicate]; omega)]
  · rw [List.getD_eq_default (List.replicate TAILLE (List.replicate TAILLE 0)) []
      (by rw [List.length_replicate]; omega)]
    simp

/-- On the draws of `random.random()` the fresh-tile value is 2. -/
theorem valeur_deux (r : ℚ) (h0 : 0 ≤ r) (h1 : r < 1) : valeur_tuile r = 2 := by
  have hfl : ⌊r⌋ = 0 := by rw [Int.floor_eq_zero_iff, Set.mem_Ico]; exact ⟨h0, h1⟩
  simp [valeur_tuile, hfl]

/-- One pass of the §4.2 pipeline never increases the number of non-empty
cells of a line. -/
theorem nb_tuiles_ligne_gauche (l : List Nat) :
    nb_tuiles (ligne_gauche l).1 ≤ nb_tuiles l := by
  obtain ⟨f1, f2, f3, f4⟩ := fusionner_inv (_supprimer_zeros l) (supprimer_sans_zero l)
  have h1 : nb_tuiles (ligne_gauche l).1 = (_fusionner (_supprimer_zeros l)).1.length := by
    show (_supprimer_zeros (_completer_zeros (_fusionner (_supprimer_zeros l)).1)).length =
      (_fusionner (_supprimer_zeros l)).1.length
    rw [supprimer_completer _ f1]
  rw [h1]
  exact f2

/-! ### Claims -/

/-- Claim C3. The single-line compact-and-merge primitive merges each cell at
most once per pass, scanning left to right: `[2,2,2,2]` yields `[4,4,0,0]`
with 8 points (never `[8,0,0,0]`), and `[4,4,8]` yields `[8,8,0,0]`; the
newly merged cell never merges again with the next element in the same
pass. -/
theorem fusion_simple_passe :
    ligne_gauche [2, 2, 2, 2] = ([4, 4, 0, 0], 8) ∧
    (ligne_gauche [2, 2, 2, 2]).1 ≠ [8, 0, 0, 0] ∧
    ligne_gauche [4, 4, 8] = ([8, 8, 0, 0], 8) := by
  refine ⟨rfl, ?_, rfl⟩
  decide

/-- Claim C6. For every board and every direction value outside the four legal
ones, `jouer_coup` silently falls through to a no-op: it returns the input
board unchanged, 0 points, and the terminal flag of the input board. -/
theorem coup_direction_inconnue (plateau : List (List Nat)) (direction : Char)
    (k : Nat) (r : ℚ) (h : direction ∉ directions_legales) :
    jouer_coup plateau direction k r = (plateau, 0, _partie_terminee plateau) := by
  simp only [directions_legales, List.mem_cons, List.not_mem_nil, or_false] at h
  push_neg at h
  obtain ⟨hg, hd, hh, hb⟩ := h
  simp [jouer_coup, hg, hd, hh, hb]

/-- Witness for `coup_direction_inconnue`: the direction `'x'` on the empty
board. -/
theorem coup_direction_inconnue_temoin :
    jouer_coup _creer_plateau_vide 'x' 0 0 =
      (_creer_plateau_vide, 0, _partie_terminee _creer_plateau_vide) :=
  coup_direction_inconnue _creer_plateau_vide 'x' 0 0 (by decide)

/-- Claim C7. Move right is exactly reverse rows, move left, reverse rows, with
the points of the inner move left; move up is transpose, move left,
transpose; move down is transpose, move right, transpose. -/
theorem decomposition_directions (plateau : List (List Nat)) :
    _deplacer_droite plateau =
      (_inverser_lignes (_deplacer_gauche (_inverser_lignes plateau)).1,
       (_deplacer_gauche (_inverser_lignes plateau)).2) ∧
    _deplacer_haut plateau =
      (_transposer (_deplacer_gauche (_transposer plateau)).1,
       (_deplacer_gauche (_transposer plateau)).2) ∧
    _deplacer_bas plateau =
      (_transposer (_deplacer_droite (_transposer plateau)).1,
       (_deplacer_droite (_transposer plateau)).2) :=
  ⟨rfl, rfl, rfl⟩

/-- Claim C4. `_partie_terminee` returns true if and only if the board has no
empty cell, no two horizontally adjacent equal cells in any row, and no two
vertically adjacent equal cells in any column; in particular a board with an
empty cell is never terminal, and a full board with an adjacent-equal pair
is not terminal. -/
theorem partie_terminee_ssi (p : List (List Nat)) :
    _partie_terminee p = true ↔ terminee_selon_spec p := by
  have hpt : _partie_terminee p =
      ((_get_cases_vides p).isEmpty &&
        (!((List.range TAILLE).any fun n => balayage_paire (colonne p n)) &&
         !((List.range TAILLE).any fun n => balayage_paire (rangee p n)))) := by
    unfold _partie_terminee
    generalize (_get_cases_vides p).isEmpty = e
    generalize ((List.range TAILLE).any fun n => balayage_paire (colonne p n)) = a
    generalize ((List.range TAILLE).any fun n => balayage_paire (rangee p n)) = b
    cases e <;> cases a <;> cases b <;> rfl
  rw [hpt]
  simp only [Bool.and_eq_true, Bool.not_eq_true', List.any_eq_false, List.mem_range,
    Bool.not_eq_true, cases_vides_vide, colonne_explicite, rangee_explicite, balayage_quatre]
  unfold terminee_selon_spec
  constructor
  · rintro ⟨hF, hC, hR⟩
    refine ⟨hF, ?_, ?_⟩
    · intro i hi j hj
      obtain ⟨-, h1, h2, h3⟩ := hR i hi
      have hj3 : j < 3 := by
        have : TAILLE = 4 := rfl
        omega
      interval_cases j
      · exact (Ne.symm h1)
      · exact (Ne.symm h2)
      · exact (Ne.symm h3)
    · intro j hj i hi
      obtain ⟨-, h1, h2, h3⟩ := hC j hj
      have hi3 : i < 3 := by
        have : TAILLE = 4 := rfl
        omega
      interval_cases i
      · exact (Ne.symm h1)
      · exact (Ne.symm h2)
      · exact (Ne.symm h3)
  · rintro ⟨hF, hRow, hCol⟩
    refine ⟨hF, ?_, ?_⟩
    · intro x hx
      exact ⟨hF 0 (by decide) x hx,
        Ne.symm (hCol x hx 0 (by decide)),
        Ne.symm (hCol x hx 1 (by decide)),
        Ne.symm (hCol x hx 2 (by decide))⟩
    · intro x hx
      exact ⟨hF x hx 0 (by decide),
        Ne.symm (hRow x hx 0 (by decide)),
        Ne.symm (hRow x hx 1 (by decide)),
        Ne.symm (hRow x hx 2 (by decide))⟩

/-- Claim C5. If the directional move leaves the board cell-wise identical to
the input, `jouer_coup` spawns no tile and returns the input board exactly,
with 0 points. -/
theorem coup_sans_changement (p : List (List Nat)) (d : Char) (k : Nat) (r : ℚ)
    (hbf : bien_forme p) (hfix : (coup_direction p d).1 = p) :
    jouer_coup p d k r = (p, 0, _partie_terminee p) := by
  rw [jouer_coup_via_direction, if_pos hfix.symm]
  rw [coup_direction_fixe_points hbf hfix, hfix]

/-- Witness for `coup_sans_changement`: a left move on the empty board. -/
theorem coup_sans_changement_temoin :
    bien_forme _creer_plateau_vide ∧
    (coup_direction _creer_plateau_vide 'g').1 = _creer_plateau_vide ∧
    jouer_coup _creer_plateau_vide 'g' 0 0 =
      (_creer_plateau_vide, 0, _partie_terminee _creer_plateau_vide) :=
  ⟨by decide, by decide,
    coup_sans_changement _creer_plateau_vide 'g' 0 0 (by decide) (by decide)⟩

/-- Claim C10. Whenever a legal move changes the board, `jouer_coup` reports
`false` for the terminal flag: the flag is computed on the pre-spawn
candidate, and a changed candidate always keeps at least one empty cell. -/
theorem coup_changeant_pas_terminal (p : List (List Nat)) (d : Char) (k : Nat)
    (r : ℚ) (hbf : bien_forme p) (hd : d ∈ directions_legales)
    (hchg : (coup_direction p d).1 ≠ p) :
    (jouer_coup p d k r).2.2 = false := by
  rw [jouer_coup_via_direction, if_neg (fun he => hchg he.symm)]
  show _partie_terminee (coup_direction p d).1 = false
  exact terminee_faux (coup_direction_change_zero hbf hd hchg)

/-- Witness for `coup_changeant_pas_terminal`: a left move on a board with a
single movable tile. -/
theorem coup_changeant_pas_terminal_temoin :
    bien_forme [[0, 2, 0, 0], [0, 0, 0, 0], [0, 0, 0, 0], [0, 0, 0, 0]] ∧
    'g' ∈ directions_legales ∧
    (coup_direction [[0, 2, 0, 0], [0, 0, 0, 0], [0, 0, 0, 0], [0, 0, 0, 0]] 'g').1 ≠
      [[0, 2, 0, 0], [0, 0, 0, 0], [0, 0, 0, 0], [0, 0, 0, 0]] ∧
    (jouer_coup [[0, 2, 0, 0], [0, 0, 0, 0], [0, 0, 0, 0], [0, 0, 0, 0]] 'g' 0 0).2.2 =
      false :=
  ⟨by decide, by decide, by decide,
    coup_changeant_pas_terminal _ 'g' 0 0 (by decide) (by decide) (by decide)⟩

/-- Counterexample to claim C1 as stated: on this board the left move changes
the board, the forced spawn (single empty cell, value 2) completes a board
that is terminal, yet `jouer_coup` returns the flag `false` because it
evaluates `_partie_terminee` on the pre-spawn candidate, not on the
post-spawn board it returns. -/
theorem drapeau_pre_spawn_contre_exemple :
    (jouer_coup [[2, 4, 2, 4], [4, 2, 4, 2], [2, 4, 2, 4], [0, 4, 2, 4]] 'g' 0 0).2.2 =
      false ∧
    _partie_terminee
      (jouer_coup [[2, 4, 2, 4], [4, 2, 4, 2], [2, 4, 2, 4], [0, 4, 2, 4]] 'g' 0 0).1 =
      true := by
  constructor
  · rfl
  · rfl

/-- Claim C1, amended. For every board and legal direction whose move changes
the board, `jouer_coup` spawns exactly one fresh tile into one previously
empty cell of the candidate, and computes the returned terminal flag on the
*pre-spawn* candidate board, not on the post-spawn board. -/
theorem coup_changeant_spawn (p : List (List Nat)) (d : Char) (k : Nat) (r : ℚ)
    (hbf : bien_forme p) (hd : d ∈ directions_legales)
    (hchg : (coup_direction p d).1 ≠ p) :
    jouer_coup p d k r =
      (_ajouter_tuile (coup_direction p d).1 k r, (coup_direction p d).2,
        _partie_terminee (coup_direction p d).1) ∧
    ∃ i j, i < TAILLE ∧ j < TAILLE ∧ cell (coup_direction p d).1 i j = 0 ∧
      _ajouter_tuile (coup_direction p d).1 k r =
        (coup_direction p d).1.set i
          (((coup_direction p d).1.getD i []).set j (valeur_tuile r)) := by
  constructor
  · rw [jouer_coup_via_direction, if_neg (fun he => hchg he.symm)]
  · exact spawn_ecrit_case_vide _ k r
      (cases_vides_nonvide (coup_direction_change_zero hbf hd hchg))

/-- Counterexample to claim C2 as stated: the draw `7/8` lies in the region
`[3/4, 1)` where the claim announces a spawned 4, yet the value computed by
`2 + 2*int(r)` is 2.  (In fact `int(r) = 0` on all of `[0, 1)`.) -/
theorem valeur_tuile_contre_exemple :
    (3 / 4 : ℚ) ≤ 7 / 8 ∧ (7 / 8 : ℚ) < 1 ∧ (0 : ℚ) ≤ 7 / 8 ∧
    valeur_tuile (7 / 8) = 2 ∧ valeur_tuile (7 / 8) ≠ 4 := by
  have hfl : ⌊(7 / 8 : ℚ)⌋ = 0 := by
    rw [Int.floor_eq_zero_iff, Set.mem_Ico]
    constructor <;> norm_num
  have hv : valeur_tuile (7 / 8) = 2 := by simp [valeur_tuile, hfl]
  exact ⟨by norm_num, by norm_num, by norm_num, hv, by rw [hv]; omega⟩

/-- Claim C2, amended. For every draw `r` of `random.random()` (so `r ∈ [0,1)`)
the fresh tile value `2 + 2*int(r)` equals 2: the value 4 is never spawned,
and there is no 3/4 versus 1/4 split.  `_ajouter_tuile` therefore either
leaves a full board unchanged or writes a 2 into one previously empty
cell. -/
theorem valeur_tuile_toujours_deux (r : ℚ) (h0 : 0 ≤ r) (h1 : r < 1) :
    valeur_tuile r = 2 ∧
    ∀ (p : List (List Nat)) (k : Nat),
      _ajouter_tuile p k r = p ∨
      ∃ i j, i < TAILLE ∧ j < TAILLE ∧ cell p i j = 0 ∧
        _ajouter_tuile p k r = p.set i ((p.getD i []).set j 2) := by
  have hv : valeur_tuile r = 2 := valeur_deux r h0 h1
  refine ⟨hv, ?_⟩
  intro p k
  cases hc : (_get_cases_vides p).isEmpty
  · right
    obtain ⟨i, j, hi, hj, h0c, hset⟩ := spawn_ecrit_case_vide p k r hc
    exact ⟨i, j, hi, hj, h0c, by rw [← hv]; exact hset⟩
  · left
    unfold _ajouter_tuile
    rw [hc]
    rfl

/-- Witness for `valeur_tuile_toujours_deux` at the draw `1/2`. -/
theorem valeur_tuile_toujours_deux_temoin :
    (0 : ℚ) ≤ 1 / 2 ∧ (1 / 2 : ℚ) < 1 ∧
    (valeur_tuile (1 / 2) = 2 ∧
      ∀ (p : List (List Nat)) (k : Nat),
        _ajouter_tuile p k (1 / 2) = p ∨
        ∃ i j, i < TAILLE ∧ j < TAILLE ∧ cell p i j = 0 ∧
          _ajouter_tuile p k (1 / 2) = p.set i ((p.getD i []).set j 2)) :=
  ⟨by norm_num, by norm_num,
    valeur_tuile_toujours_deux (1 / 2) (by norm_num) (by norm_num)⟩

/-- Counterexample to claim C9 as stated: `[2,2,4,8]` is a line of length ≤ N
over `{0} ∪ {2^m}`, its first pass gives `[4,4,8,0]`, the second pass gives
`[8,8,0,0]`, which still holds two adjacent equal non-empty cells. -/
theorem fusion_double_contre_exemple :
    ([2, 2, 4, 8] : List Nat).length ≤ TAILLE ∧
    (∀ x ∈ ([2, 2, 4, 8] : List Nat), x = 0 ∨ ∃ m, x = 2 ^ (m + 1)) ∧
    (ligne_gauche [2, 2, 4, 8]).1 = [4, 4, 8, 0] ∧
    (ligne_gauche (ligne_gauche [2, 2, 4, 8]).1).1 = [8, 8, 0, 0] ∧
    paire_adjacente (ligne_gauche (ligne_gauche [2, 2, 4, 8]).1).1 = true := by
  refine ⟨by decide, ?_, rfl, rfl, rfl⟩
  intro x hx
  simp only [List.mem_cons, List.not_mem_nil, or_false] at hx
  rcases hx with rfl | rfl | rfl | rfl
  · exact Or.inr ⟨0, rfl⟩
  · exact Or.inr ⟨0, rfl⟩
  · exact Or.inr ⟨1, rfl⟩
  · exact Or.inr ⟨2, rfl⟩

/-- Claim C9, amended. For every sequence of length ≤ N over `{0} ∪ {2^m}`,
applying the §4.2 compact-merge-pad pipeline twice yields a sequence with
the same or fewer non-empty cells than the input.  The other half of the
claim — that the twice-processed sequence holds no two adjacent equal
non-empty values — is false (see the counterexample `[2,2,4,8]`) and is
dropped. -/
theorem fusion_double_nb_tuiles (l : List Nat) (hlen : l.length ≤ TAILLE)
    (hval : ∀ x ∈ l, x = 0 ∨ ∃ m, x = 2 ^ (m + 1)) :
    nb_tuiles (ligne_gauche (ligne_gauche l).1).1 ≤ nb_tuiles l :=
  le_trans (nb_tuiles_ligne_gauche (ligne_gauche l).1) (nb_tuiles_ligne_gauche l)

/-- Witness for `fusion_double_nb_tuiles` on the line `[2, 2, 0, 4]`. -/
theorem fusion_double_nb_tuiles_temoin :
    ([2, 2, 0, 4] : List Nat).length ≤ TAILLE ∧
    (∀ x ∈ ([2, 2, 0, 4] : List Nat), x = 0 ∨ ∃ m, x = 2 ^ (m + 1)) ∧
    nb_tuiles (ligne_gauche (ligne_gauche [2, 2, 0, 4]).1).1 ≤ nb_tuiles [2, 2, 0, 4] :=
  ⟨by decide,
    by
      intro x hx
      simp only [List.mem_cons, List.not_mem_nil, or_false] at hx
      rcases hx with rfl | rfl | rfl | rfl
      · exact Or.inr ⟨0, rfl⟩
      · exact Or.inr ⟨0, rfl⟩
      · exact Or.inl rfl
      · exact Or.inr ⟨1, rfl⟩,
    fusion_double_nb_tuiles [2, 2, 0, 4] (by decide)
      (by
        intro x hx
        simp only [List.mem_cons, List.not_mem_nil, or_false] at hx
        rcases hx with rfl | rfl | rfl | rfl
        · exact Or.inr ⟨0, rfl⟩
        · exact Or.inr ⟨0, rfl⟩
        · exact Or.inl rfl
        · exact Or.inr ⟨1, rfl⟩)⟩

/-- Claim C8. `nouvelle_partie` returns score 0 together with a board holding
exactly two non-empty cells: two distinct in-range cells whose values are
2 or 4, every other cell being empty. -/
theorem nouvelle_partie_deux_tuiles (k1 : Nat) (r1 : ℚ) (k2 : Nat) (r2 : ℚ)
    (h01 : 0 ≤ r1) (h11 : r1 < 1) (h02 : 0 ≤ r2) (h12 : r2 < 1) :
    (nouvelle_partie k1 r1 k2 r2).2 = 0 ∧
    ∃ c1 c2 : Nat × Nat, c1 ≠ c2 ∧
      c1.1 < TAILLE ∧ c1.2 < TAILLE ∧ c2.1 < TAILLE ∧ c2.2 < TAILLE ∧
      (cell (nouvelle_partie k1 r1 k2 r2).1 c1.1 c1.2 = 2 ∨
        cell (nouvelle_partie k1 r1 k2 r2).1 c1.1 c1.2 = 4) ∧
      (cell (nouvelle_partie k1 r1 k2 r2).1 c2.1 c2.2 = 2 ∨
        cell (nouvelle_partie k1 r1 k2 r2).1 c2.1 c2.2 = 4) ∧
      ∀ i < TAILLE, ∀ j < TAILLE, (i, j) ≠ c1 → (i, j) ≠ c2 →
        cell (nouvelle_partie k1 r1 k2 r2).1 i j = 0 := by
  have hv1 : valeur_tuile r1 = 2 := valeur_deux r1 h01 h11
  have hv2 : valeur_tuile r2 = 2 := valeur_deux r2 h02 h12
  have hbf0 : bien_forme _creer_plateau_vide := by decide
  have hne0 : (_get_cases_vides _creer_plateau_vide).isEmpty = false := by decide
  obtain ⟨i1, j1, hi1, hj1, hz1, hs1⟩ :=
    spawn_ecrit_case_vide _creer_plateau_vide k1 r1 hne0
  have hcell1 : ∀ a b, cell (_ajouter_tuile _creer_plateau_vide k1 r1) a b =
      if a = i1 ∧ b = j1 then 2 else 0 := by
    intro a b
    rw [hs1, cell_set hbf0 hi1 hj1, hv1, cell_vide]
  have hbf1 : bien_forme (_ajouter_tuile _creer_plateau_vide k1 r1) := by
    rw [hs1]
    exact bf_set hbf0 hi1 (valeur_tuile r1)
  have hz : contient_zero (_ajouter_tuile _creer_plateau_vide k1 r1) := by
    by_cases h : i1 = 0
    · refine ⟨1, by decide, 0, by decide, ?_⟩
      rw [hcell1, if_neg (fun hc => by omega)]
    · refine ⟨0, by decide, 0, by decide, ?_⟩
      rw [hcell1, if_neg (fun hc => h hc.1.symm)]
  have hne1 : (_get_cases_vides (_ajouter_tuile _creer_plateau_vide k1 r1)).isEmpty =
      false := cases_vides_nonvide hz
  obtain ⟨i2, j2, hi2, hj2, hz2, hs2⟩ :=
    spawn_ecrit_case_vide (_ajouter_tuile _creer_plateau_vide k1 r1) k2 r2 hne1
  have hcell2 : ∀ a b, cell (nouvelle_partie k1 r1 k2 r2).1 a b =
      if a = i2 ∧ b = j2 then 2
      else cell (_ajouter_tuile _creer_plateau_vide k1 r1) a b := by
    intro a b
    show cell (_ajouter_tuile (_ajouter_tuile _creer_plateau_vide k1 r1) k2 r2) a b = _
    rw [hs2, cell_set hbf1 hi2 hj2, hv2]
  have hdiff : ((i2, j2) : Nat × Nat) ≠ (i1, j1) := by
    intro he
    rw [hcell1] at hz2
    rw [Prod.mk.injEq] at he
    rw [if_pos he] at hz2
    omega
  refine ⟨rfl, (i2, j2), (i1, j1), hdiff, hi2, hj2, hi1, hj1, ?_, ?_, ?_⟩
  · left
    rw [hcell2, if_pos ⟨rfl, rfl⟩]
  · left
    rw [hcell2]
    rw [if_neg (fun hc => hdiff (by rw [Prod.mk.injEq]; exact ⟨hc.1.symm, hc.2.symm⟩))]
    rw [hcell1, if_pos ⟨rfl, rfl⟩]
  · intro i hi j hj hn2 hn1
    rw [hcell2]
    rw [if_neg (fun hc => hn2 (by rw [Prod.mk.injEq]; exact hc))]
    rw [hcell1]
    rw [if_neg (fun hc => hn1 (by rw [Prod.mk.injEq]; exact hc))]

/-- Witness for `nouvelle_partie_deux_tuiles` at the draws
`k1 = 0, r1 = 0, k2 = 0, r2 = 1/2`. -/
theorem nouvelle_partie_deux_tuiles_temoin :
    (0 : ℚ) ≤ 0 ∧ (0 : ℚ) < 1 ∧ (0 : ℚ) ≤ 1 / 2 ∧ (1 / 2 : ℚ) < 1 ∧
    ((nouvelle_partie 0 0 0 (1 / 2)).2 = 0 ∧
      ∃ c1 c2 : Nat × Nat, c1 ≠ c2 ∧
        c1.1 < TAILLE ∧ c1.2 < TAILLE ∧ c2.1 < TAILLE ∧ c2.2 < TAILLE ∧
        (cell (nouvelle_partie 0 0 0 (1 / 2)).1 c1.1 c1.2 = 2 ∨
          cell (nouvelle_partie 0 0 0 (1 / 2)).1 c1.1 c1.2 = 4) ∧
        (cell (nouvelle_partie 0 0 0 (1 / 2)).1 c2.1 c2.2 = 2 ∨
          cell (nouvelle_partie 0 0 0 (1 / 2)).1 c2.1 c2.2 = 4) ∧
        ∀ i < TAILLE, ∀ j < TAILLE, (i, j) ≠ c1 → (i, j) ≠ c2 →
          cell (nouvelle_partie 0 0 0 (1 / 2)).1 i j = 0) :=
  ⟨le_refl 0, by norm_num, by norm_num, by norm_num,
    nouvelle_partie_deux_tuiles 0 0 0 (1 / 2) (le_refl 0) (by norm_num)
      (by norm_num) (by norm_num)⟩

/-- Witness for `coup_changeant_spawn`: the left move on the near-full board
of the counterexample, with `k = 0`, `r = 0`. -/
theorem coup_changeant_spawn_temoin :
    bien_forme [[2, 4, 2, 4], [4, 2, 4, 2], [2, 4, 2, 4], [0, 4, 2, 4]] ∧
    'g' ∈ directions_legales ∧
    (coup_direction [[2, 4, 2, 4], [4, 2, 4, 2], [2, 4, 2, 4], [0, 4, 2, 4]] 'g').1 ≠
      [[2, 4, 2, 4], [4, 2, 4, 2], [2, 4, 2, 4], [0, 4, 2, 4]] ∧
    (jouer_coup [[2, 4, 2, 4], [4, 2, 4, 2], [2, 4, 2, 4], [0, 4, 2, 4]] 'g' 0 0 =
      (_ajouter_tuile
          (coup_direction [[2, 4, 2, 4], [4, 2, 4, 2], [2, 4, 2, 4], [0, 4, 2, 4]] 'g').1 0 0,
        (coup_direction [[2, 4, 2, 4], [4, 2, 4, 2], [2, 4, 2, 4], [0, 4, 2, 4]] 'g').2,
        _partie_terminee
          (coup_direction [[2, 4, 2, 4], [4, 2, 4, 2], [2, 4, 2, 4], [0, 4, 2, 4]] 'g').1) ∧
      ∃ i j, i < TAILLE ∧ j < TAILLE ∧
        cell (coup_direction [[2, 4, 2, 4], [4, 2, 4, 2], [2, 4, 2, 4], [0, 4, 2, 4]] 'g').1
          i j = 0 ∧
        _ajouter_tuile
            (coup_direction [[2, 4, 2, 4], [4, 2, 4, 2], [2, 4, 2, 4], [0, 4, 2, 4]] 'g').1
            0 0 =
          (coup_direction [[2, 4, 2, 4], [4, 2, 4, 2], [2, 4, 2, 4], [0, 4, 2, 4]] 'g').1.set i
            (((coup_direction [[2, 4, 2, 4], [4, 2, 4, 2], [2, 4, 2, 4], [0, 4, 2, 4]] 'g').1.getD
                i []).set j (valeur_tuile 0))) :=
  ⟨by decide, by decide, by decide,
    coup_changeant_spawn [[2, 4, 2, 4], [4, 2, 4, 2], [2, 4, 2, 4], [0, 4, 2, 4]] 'g' 0 0
      (by decide) (by decide) (by decide)⟩
